import Mathlib

set_option maxRecDepth 16384

/-!
Shallow embedding of the QUADRA → FEC converter (src/app.py).

The Python source reads a Quadra ASCII accounting export line by line,
parses C (account), M (movement), R (settlement annex) and I (analytic
annex) records at fixed 1-based positions, reconciles annex lines onto the
most recent movement, and assembles the 18-column FEC rows.

Python strings are modelled as Lean String values; all positional slicing,
stripping and formatting is re-implemented below, following the source
function by function.  Machine arithmetic: the only numeric computation in
the source is int(digits) / 100 followed by %.2f formatting
(signed_cents_to_amount_str).  That float computation agrees with exact
integer-cents decimal formatting for every token of at most 15 digits
(every caller passes a field of at most 13 characters), including the
negative-zero case, so it is embedded as exact Nat arithmetic.
-/

/-- Whitespace characters stripped by Python str.strip() and matched by
the regex class backslash-s on the ASCII lines this program handles. -/
def isPySpace (c : Char) : Bool :=
  c == ' ' || c == '\t' || c == '\n' || c == '\r' || c == '\x0b' || c == '\x0c'

/-- Strip leading and trailing isPySpace characters from a character list
(the list-level body of Python str.strip()). -/
def stripList (l : List Char) : List Char :=
  ((l.dropWhile isPySpace).reverse.dropWhile isPySpace).reverse

/-- Python str.strip() on a string. -/
def pstrip (s : String) : String :=
  String.mk (stripList s.data)

/-- Python str.upper() restricted to the ASCII letters these lines
carry: uppercase every character. -/
def supper (s : String) : String :=
  String.mk (s.data.map Char.toUpper)

/-- Collapse every maximal run of whitespace to a single space (the
list-level body of re.sub of one-or-more whitespace with one space). -/
def collapseWs : List Char → List Char
  | [] => []
  | c :: rest =>
    let r := collapseWs rest
    if isPySpace c then
      match r with
      | ' ' :: _ => r
      | _ => ' ' :: r
    else c :: r

/-- clean_spaces from the source: strip, then collapse inner whitespace
runs to single spaces. -/
def clean_spaces (s : String) : String :=
  String.mk (collapseWs (pstrip s).data)

/-- sfix from the source: 1-based fixed-position slice, empty when the
start position lies beyond the end of the line (callers always pass
pos1 at least 1). -/
def sfix (line : String) (pos1 len : Nat) : String :=
  let start := pos1 - 1
  if line.data.length ≤ start then ""
  else String.mk ((line.data.drop start).take len)

/-- Python int() on a string of decimal digits. -/
def digitsToNat (l : List Char) : Nat :=
  l.foldl (fun a c => 10 * a + (c.toNat - 48)) 0

/-- Two-digit zero-padded decimal rendering (Python 02d format). -/
def pad2 (n : Nat) : String :=
  if n < 10 then "0" ++ toString n else toString n

/-- Four-digit zero-padded decimal rendering (strftime year field; the
years produced below are always at least 1900). -/
def pad4 (n : Nat) : String :=
  if n < 10 then "000" ++ toString n
  else if n < 100 then "00" ++ toString n
  else if n < 1000 then "0" ++ toString n
  else toString n

/-- Gregorian leap-year rule, as implemented by Python datetime. -/
def isLeapYear (y : Nat) : Bool :=
  (y % 4 == 0 && y % 100 != 0) || y % 400 == 0

/-- Number of days of month mm in year yyyy (0 for an invalid month). -/
def daysInMonth (yyyy mm : Nat) : Nat :=
  if mm = 1 ∨ mm = 3 ∨ mm = 5 ∨ mm = 7 ∨ mm = 8 ∨ mm = 10 ∨ mm = 12 then 31
  else if mm = 4 ∨ mm = 6 ∨ mm = 9 ∨ mm = 11 then 30
  else if mm = 2 then (if isLeapYear yyyy then 29 else 28)
  else 0

/-- Condition under which Python datetime(yyyy, mm, dd) succeeds for the
year range reachable here (1900..2099, inside MINYEAR..MAXYEAR). -/
def isValidDate (yyyy mm dd : Nat) : Bool :=
  1 ≤ mm && mm ≤ 12 && 1 ≤ dd && dd ≤ daysInMonth yyyy mm

/-- ddmmyy_to_yyyymmdd from the source: strip the token, delete every
non-digit, require exactly 6 digits, window the two-digit year on the
pivot, validate the calendar date, and render as an 8-digit date. -/
def ddmmyy_to_yyyymmdd (s : String) (pivot : Nat := 70) : String :=
  let ds := (pstrip s).data.filter Char.isDigit
  if ds.length = 6 then
    let dd := digitsToNat (ds.take 2)
    let mm := digitsToNat ((ds.drop 2).take 2)
    let yy := digitsToNat (ds.drop 4)
    let yyyy := if pivot ≤ yy then 1900 + yy else 2000 + yy
    if isValidDate yyyy mm dd then pad4 yyyy ++ pad2 mm ++ pad2 dd else ""
  else ""

/-- signed_cents_to_amount_str from the source: strip the token; empty
tokens and tokens with no digit decode to "0.00"; otherwise the digits
form an integer amount of cents rendered with two fraction digits, with
a leading minus sign exactly when the stripped token starts with the
minus character (hence "-0.00" when all digits are zero, as the Python
float formatting also prints). -/
def signed_cents_to_amount_str (signed13 : String) : String :=
  let x := pstrip signed13
  if x = "" then "0.00"
  else
    let digits := x.data.filter Char.isDigit
    if digits = [] then "0.00"
    else
      let n := digitsToNat digits
      (if x.data.head? = some '-' then "-" else "") ++
        (toString (n / 100) ++ "." ++ pad2 (n % 100))

/-- nonempty from the source: first argument that is non-empty after
stripping, returned stripped; empty string when none qualifies. -/
def nonempty : List String → String
  | [] => ""
  | v :: rest =>
    let w := pstrip v
    if w ≠ "" then w else nonempty rest

/-- make_ecriture_num from the source: concatenate journal, date and
piece, strip; fall back to ECR followed by the sequence number when the
concatenation is empty; when the base is longer than 20 characters keep
its first 18 characters and append the sequence number modulo 100 on two
digits, otherwise return the base unchanged. -/
def make_ecriture_num (journal date piece : String) (seq : Nat) : String :=
  let base := pstrip (journal ++ date ++ piece)
  let base := if base = "" then "ECR" ++ toString seq else base
  if 20 < base.data.length then String.mk (base.data.take 18) ++ pad2 (seq % 100) else base

/-- First character of a line as a string (Python line[0:1]): one
character, or empty for the empty line. -/
def tagOf (line : String) : String :=
  String.mk (line.data.take 1)

/-- One parsed movement (M) line.  The first six fields are the internal
non-FEC fields of the source dict (underscore-prefixed there); the rest
are the 18 FEC columns. -/
structure MRow where
  mFolio : String
  mContrepartie : String
  mDateEcheance : String
  mCodeAffaire : String
  mPieceJointe : String
  mJournal2 : String
  JournalCode : String
  JournalLib : String
  EcritureNum : String
  EcritureDate : String
  CompteNum : String
  CompteLib : String
  CompAuxNum : String
  CompAuxLib : String
  PieceRef : String
  PieceDate : String
  EcritureLib : String
  Debit : String
  Credit : String
  EcritureLet : String
  DateLet : String
  ValidDate : String
  Montantdevise : String
  Idevise : String
deriving DecidableEq, Repr, Inhabited

/-- One parsed settlement-annex (R) line. -/
structure RRow where
  rDateEcheance : String
  rMontantEcheance : String
  rModeRglt : String
  rJournalBanque : String
  rRefTire : String
deriving DecidableEq, Repr, Inhabited

/-- One parsed analytic-annex (I) line (feeds only the control export,
never the FEC rows). -/
structure IRow where
  iPct : String
  iMontant : String
  iCentre : String
  iNature : String
deriving DecidableEq, Repr, Inhabited

/-- parse_C from the source: account number at positions 2-9, label at
10-39; lines whose stripped account number is empty are rejected; an
empty cleaned label is replaced by the synthesized Compte label. -/
def parse_C (line : String) : Option (String × String) :=
  if line = "" ∨ ¬ (tagOf line = "C") then none
  else
    let compte := pstrip (sfix line 2 8)
    let lib := clean_spaces (sfix line 10 30)
    if compte ≠ "" then
      some (compte, if lib ≠ "" then lib else "Compte " ++ compte)
    else none

/-- parse_M from the source: strict fixed-offset extraction of one
movement line.  The debit/credit split is the if/elif on the uppercased
sense letter; the piece reference is the priority cascade over positions
232, 149, 100, 75; the currency amount is kept only when a currency code
is present and the decoded amount is not "0.00". -/
def parse_M (line : String) (pivot : Nat) : Option MRow :=
  if line = "" ∨ ¬ (tagOf line = "M") then none
  else
    let compte := pstrip (sfix line 2 8)
    let journal2 := pstrip (sfix line 10 2)
    let folio := pstrip (sfix line 12 3)
    let date_jjmmaa := pstrip (sfix line 15 6)
    let date_yyyymmdd := ddmmyy_to_yyyymmdd date_jjmmaa pivot
    let lib20 := clean_spaces (sfix line 22 20)
    let lib30 := clean_spaces (sfix line 117 30)
    let ecriture_lib := nonempty [lib30, lib20]
    let sens := supper (pstrip (sfix line 42 1))
    let montant := signed_cents_to_amount_str (sfix line 43 13)
    let debit := if sens = "D" then montant else "0.00"
    let credit := if sens = "C" then montant else "0.00"
    let contrepartie := pstrip (sfix line 56 8)
    let ech_yyyymmdd := ddmmyy_to_yyyymmdd (pstrip (sfix line 64 6)) pivot
    let lettrage2 := pstrip (sfix line 70 2)
    let piece5 := pstrip (sfix line 75 5)
    let piece8 := pstrip (sfix line 100 8)
    let piece10 := pstrip (sfix line 149 10)
    let piece20 := pstrip (sfix line 232 20)
    let piece_ref := nonempty [piece20, piece10, piece8, piece5]
    let devise := pstrip (sfix line 108 3)
    let montant_devise_signed13 := sfix line 169 13
    let idevise := if devise ≠ "" then devise else ""
    let montant_devise :=
      if devise ≠ "" then
        let md := signed_cents_to_amount_str montant_devise_signed13
        if md ≠ "0.00" then md else ""
      else ""
    let piece_jointe := pstrip (sfix line 182 12)
    let code_affaire := pstrip (sfix line 80 10)
    some {
      mFolio := folio
      mContrepartie := contrepartie
      mDateEcheance := ech_yyyymmdd
      mCodeAffaire := code_affaire
      mPieceJointe := piece_jointe
      mJournal2 := journal2
      JournalCode := journal2
      JournalLib := journal2
      EcritureNum := ""
      EcritureDate := date_yyyymmdd
      CompteNum := compte
      CompteLib := ""
      CompAuxNum := ""
      CompAuxLib := ""
      PieceRef := piece_ref
      PieceDate := date_yyyymmdd
      EcritureLib := ecriture_lib
      Debit := debit
      Credit := credit
      EcritureLet := lettrage2
      DateLet := ""
      ValidDate := date_yyyymmdd
      Montantdevise := montant_devise
      Idevise := idevise }

/-- parse_R from the source: due date at 2-7, due amount at 8-20,
settlement mode at 21-22, bank journal at 23-24, drawee reference at
25-34. -/
def parse_R (line : String) (pivot : Nat) : Option RRow :=
  if line = "" ∨ ¬ (tagOf line = "R") then none
  else some {
    rDateEcheance := ddmmyy_to_yyyymmdd (pstrip (sfix line 2 6)) pivot
    rMontantEcheance := signed_cents_to_amount_str (sfix line 8 13)
    rModeRglt := pstrip (sfix line 21 2)
    rJournalBanque := pstrip (sfix line 23 2)
    rRefTire := pstrip (sfix line 25 10) }

/-- parse_I from the source: percentage at 2-6, amount at 7-19, cost
center at 20-29, nature at 30-39. -/
def parse_I (line : String) : Option IRow :=
  if line = "" ∨ ¬ (tagOf line = "I") then none
  else some {
    iPct := pstrip (sfix line 2 5)
    iMontant := signed_cents_to_amount_str (sfix line 7 13)
    iCentre := pstrip (sfix line 20 10)
    iNature := pstrip (sfix line 30 10) }

/-- State of the sequential reconciliation scan: the account registry
(the Python dict plan, modelled as a prepend-on-insert association list
whose first hit is therefore the most recent write), the movement rows
in input order, and the index of the most recent movement.  The
meta_rows list of the source feeds only the side control CSV export and
is not part of the FEC pipeline, so it is not modelled. -/
structure ParseState where
  plan : List (String × String)
  m_rows : List MRow
  last_m_idx : Option Nat
deriving DecidableEq, Repr

/-- In-place due-date override of the source R branch: replace the due
date of the movement at index i (the m_rows at last_m_idx assignment). -/
def setDueDate (st : ParseState) (i : Nat) (d : String) : ParseState :=
  let updated := { st.m_rows.getD i default with mDateEcheance := d }
  { st with m_rows := st.m_rows.set i updated }

/-- One iteration of the parsing loop of the source: dispatch on the
first character; C upserts the registry, M appends a movement and
advances the last-movement index, R with a current movement overrides
the due date of that movement when the annex due date is non-empty, I
touches only the unmodelled control metadata; every other line leaves
the state unchanged. -/
def stepLine (pivot : Nat) (st : ParseState) (line : String) : ParseState :=
  let t := tagOf line
  if t = "C" then
    match parse_C line with
    | some p => { st with plan := (p.1, p.2) :: st.plan }
    | none => st
  else if t = "M" then
    match parse_M line pivot with
    | some m => { st with m_rows := st.m_rows ++ [m], last_m_idx := some st.m_rows.length }
    | none => st
  else if t = "R" then
    match st.last_m_idx with
    | some i =>
      match parse_R line pivot with
      | some r =>
        if r.rDateEcheance ≠ "" then setDueDate st i r.rDateEcheance
        else st
      | none => st
    | none => st
  else st

/-- The whole parsing loop: fold stepLine over the input lines starting
from the empty state. -/
def processLines (lines : List String) (pivot : Nat) : ParseState :=
  lines.foldl (stepLine pivot) { plan := [], m_rows := [], last_m_idx := none }

/-- CompteLib injection of the source: map the account number through
the registry and fall back to the synthesized Compte label when the
account is absent. -/
def injectCompteLib (plan : List (String × String)) (m : MRow) : MRow :=
  { m with CompteLib := (plan.lookup m.CompteNum).getD ("Compte " ++ m.CompteNum) }

/-- Optional due-date injection of the source: when the internal due
date is non-empty after stripping, append an ECH marker to the label
(truncated to 200 characters first when non-empty). -/
def injectEcheanceLib (m : MRow) : MRow :=
  let ech := pstrip m.mDateEcheance
  if ech ≠ "" then
    { m with EcritureLib :=
        if m.EcritureLib ≠ "" then
          String.mk (m.EcritureLib.data.take 200) ++ " | ECH:" ++ ech
        else "ECH:" ++ ech }
  else m

/-- EcritureNum assignment loop of the source: walk the rows in order,
keep a per-key occurrence counter (the seen dict, modelled as a
prepend-on-insert association list) keyed by journal, entry date and
piece reference, and write make_ecriture_num of the key and counter. -/
def assignNums (seen : List ((String × String × String) × Nat)) :
    List MRow → List MRow
  | [] => []
  | m :: rest =>
    let key := (m.JournalCode, m.EcritureDate, m.PieceRef)
    let c := (seen.lookup key).getD 0 + 1
    { m with EcritureNum := make_ecriture_num m.JournalCode m.EcritureDate m.PieceRef c }
      :: assignNums ((key, c) :: seen) rest

/-- Error message of the empty-result guard of the source. -/
def noMovementsMsg : String :=
  "Aucune ligne M lue. Vérifie que ton fichier est bien au format ASCII QuadraCOMPTA."

/-- FEC construction of the source: run the parsing loop; when no
movement line was read, fail with the distinct no-movements error;
otherwise inject account labels, optionally inject due dates into the
labels, and assign entry numbers.  The final reindexing on the 18 FEC
columns only drops the internal fields, so the rows are returned
whole. -/
def buildFec (lines : List String) (pivot : Nat) (inject_ech : Bool) :
    Except String (List MRow) :=
  let st := processLines lines pivot
  if st.m_rows = [] then Except.error noMovementsMsg
  else
    let rows := st.m_rows.map (injectCompteLib st.plan)
    let rows := if inject_ech then rows.map injectEcheanceLib else rows
    Except.ok (assignNums [] rows)

/-- Spec-side restatement of the (amended) claim C6 wording: strip the
token; when no digit remains the result is "0.00"; otherwise the result
is sign times digits divided by 100, rendered with exactly two fraction
digits, where the sign is negative exactly when the first character of
the stripped token is the minus sign (an all-zero digit string with the
minus sign therefore renders as "-0.00"). -/
def amountSpecC6 (s : String) : String :=
  let x := pstrip s
  let ds := x.data.filter Char.isDigit
  if ds = [] then "0.00"
  else
    let n := digitsToNat ds
    (if x.data.head? = some '-' then "-" else "") ++
      (toString (n / 100) ++ "." ++ pad2 (n % 100))

/-- Spec-side restatement of the claim C7 wording: after deleting every
non-digit character the token must consist of exactly 6 digits day,
month, two-digit year; the year is 1900 plus YY when YY is at least the
pivot and 2000 plus YY otherwise; a calendar-invalid triple, or a token
that does not reduce to 6 digits, decodes to the empty string. -/
def dateSpecC7 (s : String) (pivot : Nat) : String :=
  let ds := s.data.filter Char.isDigit
  if ds.length = 6 then
    let dd := digitsToNat (ds.take 2)
    let mm := digitsToNat ((ds.drop 2).take 2)
    let yy := digitsToNat (ds.drop 4)
    let yyyy := if pivot ≤ yy then 1900 + yy else 2000 + yy
    if isValidDate yyyy mm dd then pad4 yyyy ++ pad2 mm ++ pad2 dd else ""
  else ""

/-- Movement line whose four piece-reference candidate fields are blank
while the raw entry-number field at positions 204-213 holds a value. -/
def c2line : String := "M" ++ String.mk (List.replicate 202 ' ') ++ "0000011198"

/-- Movement line with a piece reference in the priority field at
positions 232 and onward. -/
def c2wline : String := "M" ++ String.mk (List.replicate 230 ' ') ++ "PC20"

/-- Movement line carrying the debit sign letter with a zero amount
token. -/
def c3line : String := "M" ++ String.mk (List.replicate 40 ' ') ++ "D+000000000000"

/-- Movement line carrying the debit sign letter with a non-zero amount
token of 72.00. -/
def c3wline : String := "M" ++ String.mk (List.replicate 40 ' ') ++ "D+000000007200"

/-- Movement line with account 40100000, journal VT, date 01/01/25 and a
debit of 10.00, and no C line anywhere in its run. -/
def c9line : String := "M40100000VT001010125" ++ String.mk (List.replicate 21 ' ') ++ "D+000000001000"

/-- The single FEC row produced by running the pipeline on c9line alone
with pivot 70 and no due-date injection. -/
def c9row : MRow := {
  mFolio := "001"
  mContrepartie := ""
  mDateEcheance := ""
  mCodeAffaire := ""
  mPieceJointe := ""
  mJournal2 := "VT"
  JournalCode := "VT"
  JournalLib := "VT"
  EcritureNum := "VT20250101"
  EcritureDate := "20250101"
  CompteNum := "40100000"
  CompteLib := "Compte 40100000"
  CompAuxNum := ""
  CompAuxLib := ""
  PieceRef := ""
  PieceDate := "20250101"
  EcritureLib := ""
  Debit := "10.00"
  Credit := "0.00"
  EcritureLet := ""
  DateLet := ""
  ValidDate := "20250101"
  Montantdevise := ""
  Idevise := "" }

/-- The settlement annex parsed from the line R150225 with pivot 70. -/
def sampleAnnex : RRow := {
  rDateEcheance := "20250215"
  rMontantEcheance := "0.00"
  rModeRglt := ""
  rJournalBanque := ""
  rRefTire := "" }

/-- A movement row as it sits in the reconciliation state, carrying an
inline due date, used to exercise the settlement-annex override. -/
def sampleRow : MRow := {
  mFolio := ""
  mContrepartie := ""
  mDateEcheance := "20250101"
  mCodeAffaire := ""
  mPieceJointe := ""
  mJournal2 := "VT"
  JournalCode := "VT"
  JournalLib := "VT"
  EcritureNum := ""
  EcritureDate := "20250101"
  CompteNum := "40100000"
  CompteLib := ""
  CompAuxNum := ""
  CompAuxLib := ""
  PieceRef := "P1"
  PieceDate := "20250101"
  EcritureLib := "lib"
  Debit := "10.00"
  Credit := "0.00"
  EcritureLet := ""
  DateLet := ""
  ValidDate := "20250101"
  Montantdevise := ""
  Idevise := "" }

/-! Helper lemmas about stripping and digit filtering. -/

lemma dropWhile_idem (p : Char → Bool) (l : List Char) :
    (l.dropWhile p).dropWhile p = l.dropWhile p := by
  induction l with
  | nil => rfl
  | cons c t ih =>
    by_cases h : p c
    · simp [List.dropWhile_cons_of_pos h, ih]
    · simp [List.dropWhile_cons_of_neg h]

lemma dropWhile_eq_cons_head_false {p : Char → Bool} {l : List Char} {c : Char}
    {t : List Char} (h : l.dropWhile p = c :: t) : p c = false := by
  induction l with
  | nil => simp [List.dropWhile] at h
  | cons x xs ih =>
    by_cases hx : p x
    · rw [List.dropWhile_cons_of_pos hx] at h
      exact ih h
    · rw [List.dropWhile_cons_of_neg hx] at h
      obtain ⟨rfl, -⟩ := List.cons_eq_cons.mp h
      simpa using hx

lemma dropWhile_reverse_of_stripped (p : Char → Bool) (a : List Char)
    (h : a.dropWhile p = a) :
    ((a.reverse.dropWhile p).reverse).dropWhile p = (a.reverse.dropWhile p).reverse := by
  cases a with
  | nil => simp
  | cons c t =>
    have hcp : p c = false := dropWhile_eq_cons_head_false h
    have hrev : (c :: t).reverse = t.reverse ++ [c] := by simp
    rw [hrev, List.dropWhile_append]
    by_cases he : (t.reverse.dropWhile p).isEmpty
    · simp only [he, if_pos]
      have h1 : List.dropWhile p [c] = [c] :=
        List.dropWhile_cons_of_neg (by simp [hcp])
      rw [h1]
      simpa using List.dropWhile_cons_of_neg (p := p) (a := c) (l := []) (by simp [hcp])
    · simp only [he, if_neg, Bool.false_eq_true, not_false_iff]
      rw [List.reverse_append]
      simpa using List.dropWhile_cons_of_neg
        (p := p) (a := c) (l := (t.reverse.dropWhile p).reverse) (by simp [hcp])

lemma stripList_idem (l : List Char) : stripList (stripList l) = stripList l := by
  have hb := dropWhile_reverse_of_stripped isPySpace (l.dropWhile isPySpace)
    (dropWhile_idem _ _)
  unfold stripList
  rw [hb, List.reverse_reverse, dropWhile_idem]

lemma pstrip_pstrip (s : String) : pstrip (pstrip s) = pstrip s :=
  congrArg String.mk (stripList_idem s.data)

lemma pstrip_empty : pstrip "" = "" := rfl

lemma space_not_digit (c : Char) (h : isPySpace c = true) : Char.isDigit c = false := by
  simp only [isPySpace, Bool.or_eq_true, beq_iff_eq] at h
  rcases h with ((((rfl | rfl) | rfl) | rfl) | rfl) | rfl <;> rfl

lemma filter_digit_dropWhile (l : List Char) :
    (l.dropWhile isPySpace).filter Char.isDigit = l.filter Char.isDigit := by
  induction l with
  | nil => rfl
  | cons c t ih =>
    by_cases h : isPySpace c
    · rw [List.dropWhile_cons_of_pos h, ih, List.filter_cons,
        space_not_digit c h]
      simp
    · rw [List.dropWhile_cons_of_neg h]

lemma filter_digit_stripList (l : List Char) :
    (stripList l).filter Char.isDigit = l.filter Char.isDigit := by
  unfold stripList
  rw [List.filter_reverse, filter_digit_dropWhile, List.filter_reverse,
    List.reverse_reverse, filter_digit_dropWhile]

lemma pstrip_filter_digit (s : String) :
    (pstrip s).data.filter Char.isDigit = s.data.filter Char.isDigit :=
  filter_digit_stripList s.data

/-! Claim theorems. -/

/-- C1: the numbering assigner is claimed to give distinct identifiers
to two movements sharing the composite key (journal, entry date, piece
reference).  The code drops the occurrence counter whenever the
concatenated base has at most 20 characters, so the common-size key
journal VT, date 20250101, piece P1 gets the identical identifier
VT20250101P1 for counter values 1 and 2, contradicting the source
comment announcing a stable and unique number built from the key and
the counter. -/
theorem make_ecriture_num_collision :
    make_ecriture_num "VT" "20250101" "P1" 1 = "VT20250101P1" ∧
    make_ecriture_num "VT" "20250101" "P1" 2 = "VT20250101P1" :=
  ⟨by decide, by decide⟩

/-- C7: the date codec equals, on every token and pivot, the spec-side
windowed decoding dateSpecC7: exactly-6-digit tokens with a
calendar-valid day/month/year decode to the 8-digit date whose year is
1900 plus YY when YY is at least the pivot and 2000 plus YY otherwise,
and every other token decodes to the empty string. -/
theorem ddmmyy_matches_spec (s : String) (pivot : Nat) :
    ddmmyy_to_yyyymmdd s pivot = dateSpecC7 s pivot := by
  unfold ddmmyy_to_yyyymmdd dateSpecC7
  rw [pstrip_filter_digit]

/-- C6 counterexample: the claim makes the sign negative exactly when
the first character of the token is the minus sign; on the token with a
leading space before the minus sign the code nevertheless decodes a
negative amount, so the claim as stated fails. -/
theorem signed_cents_leading_space_counterexample :
    signed_cents_to_amount_str " -0000000000100" = "-1.00" ∧
    ("-1.00" : String) ≠ "1.00" :=
  ⟨by decide, by decide⟩

/-- C6 amended: on every token the monetary codec equals the spec-side
decoding amountSpecC6, whose sign is negative exactly when the first
character of the whitespace-stripped token is the minus sign, whose
magnitude is the digit characters divided by 100 with exactly two
fraction digits, and which sends empty and digit-free tokens to
"0.00". -/
theorem signed_cents_matches_spec (s : String) :
    signed_cents_to_amount_str s = amountSpecC6 s := by
  simp only [signed_cents_to_amount_str, amountSpecC6]
  by_cases hx : pstrip s = ""
  · have h0 : ("" : String).data = [] := rfl
    simp [hx, h0]
  · simp [hx]

/-- Shared shape of every record returned by parse_M: the piece
reference is the cascade over positions 232, 149, 100, 75; the debit
and credit fields are driven by the uppercased sense letter; the
journal label and the three date outputs are copies. -/
lemma parse_M_fields {line : String} {pivot : Nat} {r : MRow}
    (h : parse_M line pivot = some r) :
    r.PieceRef = nonempty [pstrip (sfix line 232 20), pstrip (sfix line 149 10),
      pstrip (sfix line 100 8), pstrip (sfix line 75 5)] ∧
    r.Debit = (if supper (pstrip (sfix line 42 1)) = "D"
      then signed_cents_to_amount_str (sfix line 43 13) else "0.00") ∧
    r.Credit = (if supper (pstrip (sfix line 42 1)) = "C"
      then signed_cents_to_amount_str (sfix line 43 13) else "0.00") ∧
    r.JournalLib = r.JournalCode ∧ r.PieceDate = r.EcritureDate ∧
    r.ValidDate = r.EcritureDate := by
  unfold parse_M at h
  split at h
  · exact Option.noConfusion h
  · simp only [Option.some.injEq] at h
    subst h
    exact ⟨rfl, rfl, rfl, rfl, rfl, rfl⟩

/-- C2 counterexample: on a movement line whose four piece-reference
candidate fields are all blank while the raw entry-number field at
positions 204-213 holds 0000011198, the parser leaves PieceRef empty
instead of falling back to the entry number as the claim states. -/
theorem piece_cascade_no_entry_fallback :
    (parse_M c2line 70).map MRow.PieceRef = some "" ∧
    pstrip (sfix c2line 204 10) = "0000011198" :=
  ⟨by decide, by decide⟩

/-- C2 amended: the piece reference of every parsed movement is the
first non-empty candidate in descending authority order (position 232
over 149 over 100 over 75), and when all four candidates are empty the
piece reference is the empty string (there is no entry-number
fallback). -/
theorem parse_M_piece_cascade (line : String) (pivot : Nat) (r : MRow)
    (h : parse_M line pivot = some r) :
    (pstrip (sfix line 232 20) ≠ "" → r.PieceRef = pstrip (sfix line 232 20)) ∧
    (pstrip (sfix line 232 20) = "" → pstrip (sfix line 149 10) ≠ "" →
      r.PieceRef = pstrip (sfix line 149 10)) ∧
    (pstrip (sfix line 232 20) = "" → pstrip (sfix line 149 10) = "" →
      pstrip (sfix line 100 8) ≠ "" → r.PieceRef = pstrip (sfix line 100 8)) ∧
    (pstrip (sfix line 232 20) = "" → pstrip (sfix line 149 10) = "" →
      pstrip (sfix line 100 8) = "" → pstrip (sfix line 75 5) ≠ "" →
      r.PieceRef = pstrip (sfix line 75 5)) ∧
    (pstrip (sfix line 232 20) = "" → pstrip (sfix line 149 10) = "" →
      pstrip (sfix line 100 8) = "" → pstrip (sfix line 75 5) = "" →
      r.PieceRef = "") := by
  have hr := (parse_M_fields h).1
  rw [hr]
  refine ⟨fun h20 => ?_, fun h20 h10 => ?_, fun h20 h10 h8 => ?_,
    fun h20 h10 h8 h5 => ?_, fun h20 h10 h8 h5 => ?_⟩
  · simp [nonempty, pstrip_pstrip, h20]
  · simp [nonempty, pstrip_pstrip, pstrip_empty, h20, h10]
  · simp [nonempty, pstrip_pstrip, pstrip_empty, h20, h10, h8]
  · simp [nonempty, pstrip_pstrip, pstrip_empty, h20, h10, h8, h5]
  · simp [nonempty, pstrip_pstrip, pstrip_empty, h20, h10, h8, h5]

/-- C2 witness: on a line whose priority field at position 232 holds
PC20 the cascade picks it. -/
theorem parse_M_piece_cascade_witness :
    pstrip (sfix c2wline 232 20) ≠ "" ∧
    ((parse_M c2wline 70).getD default).PieceRef = pstrip (sfix c2wline 232 20) := by
  have h : parse_M c2wline 70 = some ((parse_M c2wline 70).getD default) := by decide
  exact ⟨by decide, (parse_M_piece_cascade c2wline 70 _ h).1 (by decide)⟩

/-- C3 counterexample: a movement line whose sense letter is the
recognized debit letter D but whose amount token is zero produces a
record with both Debit and Credit equal to "0.00", so the claim that
the non-"0.00" side is always non-zero for recognized signs fails. -/
theorem sign_recognized_zero_amount :
    pstrip (sfix c3line 42 1) = "D" ∧
    (parse_M c3line 70).map (fun r => (r.Debit, r.Credit)) = some ("0.00", "0.00") :=
  ⟨by decide, by decide⟩

/-- C3 amended: for every parsed movement, at least one of Debit and
Credit is "0.00"; a recognized sense letter routes the decoded amount
to its side and forces the other side to "0.00"; an unrecognized sense
letter forces both to "0.00"; and whenever the decoded amount is not
"0.00" and the sense letter is recognized, exactly one side is
"0.00". -/
theorem parse_M_sign_fields (line : String) (pivot : Nat) (r : MRow)
    (h : parse_M line pivot = some r) :
    (r.Debit = "0.00" ∨ r.Credit = "0.00") ∧
    (supper (pstrip (sfix line 42 1)) = "D" →
      r.Debit = signed_cents_to_amount_str (sfix line 43 13) ∧ r.Credit = "0.00") ∧
    (supper (pstrip (sfix line 42 1)) = "C" →
      r.Credit = signed_cents_to_amount_str (sfix line 43 13) ∧ r.Debit = "0.00") ∧
    (¬ supper (pstrip (sfix line 42 1)) = "D" →
      ¬ supper (pstrip (sfix line 42 1)) = "C" →
      r.Debit = "0.00" ∧ r.Credit = "0.00") ∧
    (signed_cents_to_amount_str (sfix line 43 13) ≠ "0.00" →
      (supper (pstrip (sfix line 42 1)) = "D" ∨ supper (pstrip (sfix line 42 1)) = "C") →
      (r.Debit = "0.00" ↔ ¬ r.Credit = "0.00")) := by
  obtain ⟨-, hD, hC, -, -, -⟩ := parse_M_fields h
  by_cases hsD : supper (pstrip (sfix line 42 1)) = "D" <;>
    by_cases hsC : supper (pstrip (sfix line 42 1)) = "C"
  · exact absurd (hsD.symm.trans hsC) (by decide)
  · have h1 : r.Debit = signed_cents_to_amount_str (sfix line 43 13) := by
      rw [hD, if_pos hsD]
    have h2 : r.Credit = "0.00" := by rw [hC, if_neg hsC]
    refine ⟨Or.inr h2, fun _ => ⟨h1, h2⟩, fun hc => absurd hc hsC,
      fun hd _ => absurd hsD hd, fun hm _ => ?_⟩
    rw [h1, h2]
    simp [hm]
  · have h1 : r.Credit = signed_cents_to_amount_str (sfix line 43 13) := by
      rw [hC, if_pos hsC]
    have h2 : r.Debit = "0.00" := by rw [hD, if_neg hsD]
    refine ⟨Or.inl h2, fun hd => absurd hd hsD, fun _ => ⟨h1, h2⟩,
      fun _ hc => absurd hsC hc, fun hm _ => ?_⟩
    rw [h1, h2]
    simp [hm]
  · have h1 : r.Debit = "0.00" := by rw [hD, if_neg hsD]
    have h2 : r.Credit = "0.00" := by rw [hC, if_neg hsC]
    refine ⟨Or.inl h1, fun hd => absurd hd hsD, fun hc => absurd hc hsC,
      fun _ _ => ⟨h1, h2⟩, fun _ hor => ?_⟩
    rcases hor with hd | hc
    · exact absurd hd hsD
    · exact absurd hc hsC

/-- C3 witness: on a debit line with amount token 72.00 the debit side
carries 72.00 and the credit side is "0.00". -/
theorem parse_M_sign_fields_witness :
    supper (pstrip (sfix c3wline 42 1)) = "D" ∧
    ((parse_M c3wline 70).getD default).Debit =
      signed_cents_to_amount_str (sfix c3wline 43 13) ∧
    ((parse_M c3wline 70).getD default).Credit = "0.00" := by
  have h : parse_M c3wline 70 = some ((parse_M c3wline 70).getD default) := by decide
  exact ⟨by decide, (parse_M_sign_fields c3wline 70 _ h).2.1 (by decide)⟩

/-- C10: every record produced by parse_M copies the journal field into
both JournalCode and JournalLib, and the decoded entry date into
EcritureDate, PieceDate and ValidDate, so the four derived fields are
never independent. -/
theorem parse_M_derived_fields (line : String) (pivot : Nat) (r : MRow)
    (h : parse_M line pivot = some r) :
    r.JournalLib = r.JournalCode ∧ r.PieceDate = r.EcritureDate ∧
    r.ValidDate = r.EcritureDate := by
  obtain ⟨-, -, -, h1, h2, h3⟩ := parse_M_fields h
  exact ⟨h1, h2, h3⟩

/-- C10 witness: the bare movement line M parses and satisfies the
field-copy invariants. -/
theorem parse_M_derived_fields_witness :
    ((parse_M "M" 70).getD default).JournalLib =
      ((parse_M "M" 70).getD default).JournalCode ∧
    ((parse_M "M" 70).getD default).PieceDate =
      ((parse_M "M" 70).getD default).EcritureDate ∧
    ((parse_M "M" 70).getD default).ValidDate =
      ((parse_M "M" 70).getD default).EcritureDate := by
  have h : parse_M "M" 70 = some ((parse_M "M" 70).getD default) := by decide
  exact parse_M_derived_fields "M" 70 _ h

/-- C4 counterexample: the bare line M is far shorter than any viable
movement layout and contains no sign-and-amount anchor, yet it is not
skipped: it parses, lands in the movement rows, and yields an output
record. -/
theorem short_movement_line_not_skipped :
    (parse_M "M" 70).isSome = true ∧
    (processLines ["M"] 70).m_rows.length = 1 ∧
    (buildFec ["M"] 70 false).toOption.map List.length = some 1 :=
  ⟨by decide, by decide, by decide⟩

/-- C4 amended: a line whose leading character is not C, M, R or I is
silently skipped and leaves the scan state unchanged; a C line whose
stripped account field is empty is likewise skipped; but there is no
minimum-length skip for movement lines: every line starting with M
parses to a record (with empty fields and both amounts "0.00" when the
positions are absent). -/
theorem unknown_tag_lines_skipped :
    (∀ st line pivot, ¬ tagOf line = "C" → ¬ tagOf line = "M" →
      ¬ tagOf line = "R" → ¬ tagOf line = "I" → stepLine pivot st line = st) ∧
    (∀ line pivot, tagOf line = "M" → (parse_M line pivot).isSome = true) ∧
    (∀ st line pivot, tagOf line = "C" → pstrip (sfix line 2 8) = "" →
      stepLine pivot st line = st) := by
  refine ⟨?_, ?_, ?_⟩
  · intro st line pivot h1 h2 h3 h4
    simp [stepLine, h1, h2, h3]
  · intro line pivot h
    have hcond : ¬ (line = "" ∨ ¬ tagOf line = "M") := by
      push_neg
      refine ⟨?_, h⟩
      intro he
      rw [he] at h
      exact absurd h (by decide)
    unfold parse_M
    rw [if_neg hcond]
    rfl
  · intro st line pivot h hc
    have hpc : parse_C line = none := by
      unfold parse_C
      split
      · rfl
      · simp [hc]
    simp [stepLine, h, hpc]

/-- C4 witness: a line tagged X is skipped with no state change, and
the bare movement line M still parses. -/
theorem unknown_tag_lines_skipped_witness :
    stepLine 70 { plan := [], m_rows := [], last_m_idx := none } "X" =
      { plan := [], m_rows := [], last_m_idx := none } ∧
    (parse_M "M" 70).isSome = true :=
  ⟨unknown_tag_lines_skipped.1 _ "X" 70 (by decide) (by decide) (by decide) (by decide),
    unknown_tag_lines_skipped.2.1 "M" 70 (by decide)⟩

/-- C8: a settlement or analytic annex line arriving with no current
movement leaves the state unchanged; a settlement annex arriving with a
current movement overrides that movement's due date when the annex due
date is non-empty and changes nothing when it is empty. -/
theorem annex_merge (st : ParseState) (line : String) (pivot : Nat) :
    ((tagOf line = "R" ∨ tagOf line = "I") → st.last_m_idx = none →
      stepLine pivot st line = st) ∧
    (∀ i rr, tagOf line = "R" → st.last_m_idx = some i →
      parse_R line pivot = some rr →
      (rr.rDateEcheance ≠ "" →
        stepLine pivot st line = setDueDate st i rr.rDateEcheance) ∧
      (rr.rDateEcheance = "" → stepLine pivot st line = st)) := by
  have eRC : ¬ (("R" : String) = "C") := by decide
  have eRM : ¬ (("R" : String) = "M") := by decide
  have eIC : ¬ (("I" : String) = "C") := by decide
  have eIM : ¬ (("I" : String) = "M") := by decide
  have eIR : ¬ (("I" : String) = "R") := by decide
  constructor
  · rintro (h | h) hnone
    · simp [stepLine, h, hnone, eRC, eRM]
    · simp [stepLine, h, eIC, eIM, eIR]
  · intro i rr hR hlast hpr
    constructor
    · intro hne
      simp [stepLine, hR, hlast, hpr, hne, eRC, eRM]
    · intro heq
      simp [stepLine, hR, hlast, hpr, heq, eRC, eRM]

/-- C8 witness: a movement with inline due date 20250101 followed by
the settlement annex line R150225 ends up with due date 20250215. -/
theorem annex_merge_witness :
    stepLine 70 { plan := [], m_rows := [sampleRow], last_m_idx := some 0 } "R150225" =
      setDueDate { plan := [], m_rows := [sampleRow], last_m_idx := some 0 } 0 "20250215" ∧
    (setDueDate { plan := [], m_rows := [sampleRow], last_m_idx := some 0 }
      0 "20250215").m_rows.map MRow.mDateEcheance = ["20250215"] := by
  constructor
  · have h := (annex_merge { plan := [], m_rows := [sampleRow], last_m_idx := some 0 }
      "R150225" 70).2 0 sampleAnnex (by decide) rfl (by decide)
    exact h.1 (by decide)
  · decide

/-- Entry-number assignment touches only EcritureNum: every output row
keeps the account number and account label of some input row. -/
lemma assignNums_fields (rows : List MRow) :
    ∀ seen r, r ∈ assignNums seen rows →
      ∃ m, m ∈ rows ∧ r.CompteLib = m.CompteLib ∧ r.CompteNum = m.CompteNum := by
  induction rows with
  | nil =>
    intro seen r hr
    simp [assignNums] at hr
  | cons m rest ih =>
    intro seen r hr
    simp only [assignNums] at hr
    rcases List.mem_cons.mp hr with h | h
    · refine ⟨m, List.mem_cons_self m rest, ?_, ?_⟩ <;> rw [h]
    · obtain ⟨m0, hm0, h1, h2⟩ := ih _ r h
      exact ⟨m0, List.mem_cons_of_mem _ hm0, h1, h2⟩

/-- Due-date label injection touches only EcritureLib. -/
lemma injectEcheanceLib_fields (m : MRow) :
    (injectEcheanceLib m).CompteLib = m.CompteLib ∧
    (injectEcheanceLib m).CompteNum = m.CompteNum := by
  simp only [injectEcheanceLib]
  split
  · exact ⟨rfl, rfl⟩
  · exact ⟨rfl, rfl⟩

/-- C9 counterexample: a run containing one movement on account
40100000 and no account line labels the row with the literal string
Compte 40100000, not with the Account prefix the claim quotes. -/
theorem account_label_is_Compte :
    (buildFec [c9line] 70 false).toOption.map (List.map MRow.CompteLib) =
      some ["Compte 40100000"] ∧
    ("Compte 40100000" : String) ≠ "Account 40100000" :=
  ⟨by decide, by decide⟩

/-- C9 amended: a run fails with the distinct no-movements error
exactly when the scan produced no movement row (so a run with zero
account lines is not fatal), and every emitted row whose account number
is absent from the registry gets the synthesized label Compte followed
by the account number. -/
theorem buildFec_fatal_and_labels :
    (∀ lines pivot inject_ech,
      buildFec lines pivot inject_ech = Except.error noMovementsMsg ↔
        (processLines lines pivot).m_rows = []) ∧
    (∀ lines pivot inject_ech rows,
      buildFec lines pivot inject_ech = Except.ok rows →
      ∀ r, r ∈ rows →
        (processLines lines pivot).plan.lookup r.CompteNum = none →
        r.CompteLib = "Compte " ++ r.CompteNum) := by
  constructor
  · intro lines pivot inj
    simp only [buildFec]
    split
    · next hemp => simp [hemp]
    · next hemp => simp [hemp]
  · intro lines pivot inj rows hok r hr hlook
    simp only [buildFec] at hok
    split at hok
    · exact Except.noConfusion hok
    · simp only [Except.ok.injEq] at hok
      subst hok
      obtain ⟨m1, hm1, hlib1, hnum1⟩ := assignNums_fields _ _ r hr
      have key : ∀ m2, m1 = injectCompteLib (processLines lines pivot).plan m2 →
          r.CompteLib = "Compte " ++ r.CompteNum := by
        intro m2 hm2
        have hnum2 : m1.CompteNum = m2.CompteNum := by rw [hm2]; rfl
        have hlib2 : m1.CompteLib =
            ((processLines lines pivot).plan.lookup m2.CompteNum).getD
              ("Compte " ++ m2.CompteNum) := by rw [hm2]; rfl
        have hl2 : (processLines lines pivot).plan.lookup m2.CompteNum = none := by
          rw [← hnum2, ← hnum1]
          exact hlook
        rw [hlib1, hlib2, hl2, Option.getD_none, hnum1, hnum2]
      rcases hi : inj with _ | _
      · rw [hi] at hm1
        simp only [Bool.false_eq_true, if_false] at hm1
        obtain ⟨m2, hm2mem, hm2⟩ := List.mem_map.mp hm1
        exact key m2 hm2.symm
      · rw [hi] at hm1
        simp only [if_true] at hm1
        obtain ⟨m3, hm3mem, hm3⟩ := List.mem_map.mp hm1
        obtain ⟨m2, hm2mem, hm2⟩ := List.mem_map.mp hm3mem
        have h1 : m1.CompteLib = m3.CompteLib := by
          rw [← hm3]
          exact (injectEcheanceLib_fields m3).1
        have h2 : m1.CompteNum = m3.CompteNum := by
          rw [← hm3]
          exact (injectEcheanceLib_fields m3).2
        have hnum3 : m3.CompteNum = m2.CompteNum := by rw [← hm2]; rfl
        have hlib3 : m3.CompteLib =
            ((processLines lines pivot).plan.lookup m2.CompteNum).getD
              ("Compte " ++ m2.CompteNum) := by rw [← hm2]; rfl
        have hl2 : (processLines lines pivot).plan.lookup m2.CompteNum = none := by
          rw [← hnum3, ← h2, ← hnum1]
          exact hlook
        rw [hlib1, h1, hlib3, hl2, Option.getD_none, hnum1, h2, hnum3]

/-- C9 witness: the empty run fails with the no-movements error, and
the row of the c9line run (whose account is absent from the empty
registry) carries the synthesized Compte label. -/
theorem buildFec_fatal_and_labels_witness :
    buildFec [] 70 true = Except.error noMovementsMsg ∧
    c9row.CompteLib = "Compte " ++ c9row.CompteNum := by
  constructor
  · exact (buildFec_fatal_and_labels.1 [] 70 true).mpr rfl
  · have hok : buildFec [c9line] 70 false = Except.ok [c9row] := by rfl
    exact buildFec_fatal_and_labels.2 [c9line] 70 false [c9row] hok c9row
      (List.mem_singleton.mpr rfl) (by decide)
